import Mathlib

/-!
Shallow embedding of the dehashed-rs client library (query compiler,
response normalizer, paginating fetch loop, dispatch scheduler) and
verification of its specification claims.

External collaborators (the HTTP transport, JSON body parsing and the
standard library's IP-address parser) are passed in as explicit function
arguments, exactly as the spec treats them: capabilities, not logic of
this library.
-/

set_option autoImplicit false

namespace Dehashed

/-! ## Query model (src/api.rs) -/

/-- The fixed 21-character reserved set of `src/api.rs`. -/
def RESERVED : List Char :=
  ['+', '-', '=', '&', '|', '>', '<', '!', '(', ')', '\x7b', '\x7d', '[', ']', '^', '\"', '~',
    '*', '?', ':', '\\']

/-- Embedding of `fn escape(q: &str) -> String`: build the output left to
right, prefixing each reserved character with a backslash. -/
def escape (q : String) : String :=
  q.data.foldl
    (fun s c => if c ∈ RESERVED then s ++ String.mk ['\\', c] else s.push c)
    ""

/-- Embedding of `enum SearchType`. -/
inductive SearchType where
  | Simple (x : String)
  | Exact (x : String)
  | Regex (x : String)
  | Or (x : List SearchType)
  | And (x : List SearchType)
  deriving Repr

mutual

/-- Embedding of `impl ToString for SearchType`. -/
def SearchType.toString : SearchType → String
  | SearchType.Simple x => escape x
  | SearchType.Exact x => "\"" ++ escape x ++ "\""
  | SearchType.Regex x => "/" ++ escape x ++ "/"
  | SearchType.Or x => String.intercalate " OR " (SearchType.toStringList x)
  | SearchType.And x => String.intercalate " " (SearchType.toStringList x)

/-- Rendering of a child list, in order (the `iter().map().collect()` of the
source). -/
def SearchType.toStringList : List SearchType → List String
  | [] => []
  | t :: ts => SearchType.toString t :: SearchType.toStringList ts

end

/-- Embedding of `enum Query`. -/
inductive Query where
  | Email (x : SearchType)
  | IpAddress (x : SearchType)
  | Username (x : SearchType)
  | Password (x : SearchType)
  | HashedPassword (x : SearchType)
  | Name (x : SearchType)
  | Domain (x : SearchType)
  | Vin (x : SearchType)
  | Phone (x : SearchType)
  | Address (x : SearchType)
  deriving Repr

/-- Embedding of `impl ToString for Query`. -/
def Query.toString : Query → String
  | Query.Email x => "email:" ++ x.toString
  | Query.IpAddress x => "ip_address:" ++ x.toString
  | Query.Username x => "username:" ++ x.toString
  | Query.Password x => "password:" ++ x.toString
  | Query.HashedPassword x => "hashed_password:" ++ x.toString
  | Query.Name x => "name:" ++ x.toString
  | Query.Domain x => "domain:" ++ x.toString
  | Query.Vin x => "vin:" ++ x.toString
  | Query.Phone x => "phone:" ++ x.toString
  | Query.Address x => "address:" ++ x.toString

theorem toStringList_eq_map (l : List SearchType) :
    SearchType.toStringList l = l.map SearchType.toString := by
  induction l with
  | nil => rfl
  | cons t ts ih => simp [SearchType.toStringList, ih]

/-! ## Errors (src/error.rs) -/

/-- Embedding of `enum DehashedError` (payloads of the wrapped library
errors are not modelled). -/
inductive DehashedError where
  | ReqwestError
  | Unauthorized
  | InvalidQuery
  | RateLimited
  | Unknown
  | ParseIntError
  | ParseAddrError
  deriving Repr, DecidableEq

/-! ## Wire types (src/res.rs) and normalized result types (src/api.rs) -/

/-- Embedding of the transient DTO `struct Entry`: all fields are strings as
delivered by the provider. -/
structure Entry where
  id : String
  email : String
  username : String
  password : String
  hashed_password : String
  ip_address : String
  name : String
  vin : String
  address : String
  phone : String
  database_name : String
  deriving Repr, DecidableEq

/-- Embedding of the transient DTO `struct Response`. The pagination loop in
`api.rs` destructures `entries` as an `Option`, so it is modelled as one. -/
structure Response where
  balance : Nat
  entries : Option (List Entry)
  success : Bool
  took : String
  total : Nat
  deriving Repr

/-- Model of `std::net::IpAddr`, the structured address type (standard
library, external to this crate): a four-octet v4 address or a v6 address
given by its 16-bit segments. -/
inductive IpAddr where
  | v4 (a b c d : Nat)
  | v6 (segments : List Nat)
  deriving Repr, DecidableEq

/-- Model of `u64::from_str` (standard library, external to this crate): an
optional leading plus sign, then one or more ASCII digits, and the value
must fit in 64 bits. -/
def parseU64 (s : String) : Option Nat :=
  let cs := match s.data with
    | '+' :: rest => rest
    | cs => cs
  if cs.isEmpty then none
  else if cs.all Char.isDigit then
    let v := cs.foldl (fun a c => a * 10 + (c.toNat - 48)) 0
    if v < 2 ^ 64 then some v else none
  else none

/-- Embedding of `struct SearchEntry`: the normalized result record. -/
structure SearchEntry where
  id : Nat
  email : Option String
  username : Option String
  password : Option String
  hashed_password : Option String
  ip_address : Option IpAddr
  name : Option String
  vin : Option String
  address : Option String
  phone : Option String
  database_name : Option String
  deriving Repr, DecidableEq

/-- Embedding of `impl TryFrom<Entry> for SearchEntry`. The standard
library's IP-address parser is an external capability and is passed in as
`parseIp`; `?`-propagation of the two fallible parses keeps the source's
evaluation order (`id` first, then `ip_address`). -/
def SearchEntry.tryFrom (parseIp : String → Option IpAddr) (value : Entry) :
    Except DehashedError SearchEntry :=
  match parseU64 value.id with
  | none => Except.error DehashedError.ParseIntError
  | some id =>
    match (if value.ip_address.isEmpty then Except.ok none
           else match parseIp value.ip_address with
             | some a => Except.ok (some a)
             | none => Except.error DehashedError.ParseAddrError :
            Except DehashedError (Option IpAddr)) with
    | Except.error e => Except.error e
    | Except.ok ip =>
      Except.ok
        { id := id
          email := if value.email.isEmpty then none else some value.email
          username := if value.username.isEmpty then none else some value.username
          password := if value.password.isEmpty then none else some value.password
          hashed_password :=
            if value.hashed_password.isEmpty then none else some value.hashed_password
          ip_address := ip
          name := if value.name.isEmpty then none else some value.name
          vin := if value.vin.isEmpty then none else some value.vin
          address := if value.address.isEmpty then none else some value.address
          phone := if value.phone.isEmpty then none else some value.phone
          database_name :=
            if value.database_name.isEmpty then none else some value.database_name }

/-- Embedding of `struct SearchResult`. -/
structure SearchResult where
  entries : List SearchEntry
  balance : Nat
  deriving Repr, DecidableEq

/-! ## Fetch engine (src/api.rs, `DehashedApi::raw_req` and
`DehashedApi::search`)

The HTTP transport is a capability: one attempt either fails at the
transport level (reqwest error) or yields a status code and a body string.
JSON body parsing is likewise a capability `String → Option Response`. -/

/-- Outcome of one HTTP send, as seen by `raw_req`. -/
inductive HttpOutcome where
  | sendFailure
  | response (status : Nat) (body : String)
  deriving Repr

namespace DehashedApi

/-- Embedding of `DehashedApi::raw_req`: classify the HTTP status, parsing
the body of a 200 response with the JSON capability `parse`. -/
def raw_req (parse : String → Option Response) : HttpOutcome → Except DehashedError Response
  | HttpOutcome.sendFailure => Except.error DehashedError.ReqwestError
  | HttpOutcome.response status body =>
    if status = 302 then Except.error DehashedError.InvalidQuery
    else if status = 400 then Except.error DehashedError.RateLimited
    else if status = 401 then Except.error DehashedError.Unauthorized
    else if status = 200 then
      match parse body with
      | some result => Except.ok result
      | none => Except.error DehashedError.Unknown
    else Except.error DehashedError.Unknown

/-- The inner loop of `search` that pushes each normalized entry of a page
onto the accumulated entry list, aborting on the first normalization
error. -/
def pushEntries (parseIp : String → Option IpAddr) (acc : List SearchEntry) :
    List Entry → Except DehashedError (List SearchEntry)
  | [] => Except.ok acc
  | e :: es =>
    match SearchEntry.tryFrom parseIp e with
    | Except.error err => Except.error err
    | Except.ok se => pushEntries parseIp (acc ++ [se]) es

/-- What one iteration of the pagination loop decides. -/
inductive StepOutcome where
  | err (e : DehashedError)
  | done (acc : SearchResult)
  | next (acc : SearchResult)
  deriving Repr

/-- One iteration of the `for page in 1..` loop body of `search`, given the
result of `raw_req` for this page: require `success`, normalize and append
the page's entries, overwrite the balance, then either break
(`total < page * 10_000`), or sleep and go to the next page. -/
def searchStep (parseIp : String → Option IpAddr) (res : Except DehashedError Response)
    (acc : SearchResult) (page : Nat) : StepOutcome :=
  match res with
  | Except.error e => StepOutcome.err e
  | Except.ok r =>
    if !r.success then StepOutcome.err DehashedError.Unknown
    else
      match (match r.entries with
             | some es => pushEntries parseIp acc.entries es
             | none => Except.ok acc.entries) with
      | Except.error e => StepOutcome.err e
      | Except.ok newEntries =>
        if r.total < page * 10000 then StepOutcome.done ⟨newEntries, r.balance⟩
        else StepOutcome.next ⟨newEntries, r.balance⟩

/-- Observable trace of a run of the pagination loop: how many page
requests it made, how many fixed 200ms inter-page sleeps it performed, and
what it returned. -/
structure SearchTrace where
  requests : Nat
  sleeps : Nat
  result : Except DehashedError SearchResult
  deriving Repr

/-- The pagination loop of `search` from a given page and accumulator. The
loop of the source has no bound, so the embedding carries fuel; `none`
means the loop was still running when the fuel ran out, and every claim is
about runs that do finish. -/
def searchFrom (parseIp : String → Option IpAddr)
    (fetch : Nat → Except DehashedError Response) :
    Nat → Nat → SearchResult → Option SearchTrace
  | 0, _, _ => none
  | fuel + 1, page, acc =>
    match searchStep parseIp (fetch page) acc page with
    | StepOutcome.err e => some ⟨1, 0, Except.error e⟩
    | StepOutcome.done res => some ⟨1, 0, Except.ok res⟩
    | StepOutcome.next acc2 =>
      match searchFrom parseIp fetch fuel (page + 1) acc2 with
      | none => none
      | some t => some ⟨t.requests + 1, t.sleeps + 1, t.result⟩

/-- Embedding of `DehashedApi::search`: run the pagination loop from page 1
with an empty accumulator, fetching each page through `raw_req` with the
fixed size 10000. -/
def search (parseIp : String → Option IpAddr) (parse : String → Option Response)
    (http : Nat → HttpOutcome) (fuel : Nat) : Option SearchTrace :=
  searchFrom parseIp (fun page => raw_req parse (http page)) fuel 1 ⟨[], 0⟩

end DehashedApi

/-! ## Dispatch scheduler (src/scheduler.rs)

The worker of `Scheduler::new` is a sequential loop over the requests the
bounded mpsc channel delivers; the channel's FIFO delivery is modelled by
giving the worker the queued requests as a list. A request's oneshot reply
channel is modelled by whether its receiving end is still open. -/

/-- Embedding of `struct ScheduledRequest`: a query plus a single-use reply
channel, modelled by whether the receiver still listens. -/
structure ScheduledRequest where
  query : Query
  retOpen : Bool

/-- Observable events of the scheduler worker, in the order the worker
performs them. -/
inductive WorkerEvent where
  | search (q : Query)
  | send (q : Query) (res : Except DehashedError SearchResult)
  | warnSendFailed (q : Query)
  | sleep200
  deriving Repr

/-- Recognize the event that starts processing a request. -/
def WorkerEvent.isSearch : WorkerEvent → Bool
  | WorkerEvent.search _ => true
  | _ => false

namespace Scheduler

/-- One turn of the worker loop of `Scheduler::new`: run the search for the
request, send the result back (a failed send is logged and ignored), then
sleep the fixed 200ms. The fetch engine is abstracted into
`doSearch : Query → Except DehashedError SearchResult`. -/
def workerStep (doSearch : Query → Except DehashedError SearchResult)
    (req : ScheduledRequest) : List WorkerEvent :=
  [WorkerEvent.search req.query]
    ++ (if req.retOpen then [WorkerEvent.send req.query (doSearch req.query)]
        else [WorkerEvent.warnSendFailed req.query])
    ++ [WorkerEvent.sleep200]

/-- The worker loop `while let Some(req) = rx.recv().await`: process the
delivered requests one after the other until the channel is exhausted. -/
def workerRun (doSearch : Query → Except DehashedError SearchResult) :
    List ScheduledRequest → List WorkerEvent
  | [] => []
  | req :: rest => workerStep doSearch req ++ workerRun doSearch rest

end Scheduler

/-! ## Spec-side descriptions

These definitions restate what the spec's sentences say, to be compared
with the definitions embedded from the source. -/

/-- The reserved set exactly as the claim lists it:
`+ - = & | > < ! ( ) \x7b \x7d [ ] ^ " ~ * ? : \`. -/
def reservedSpec : List Char :=
  ['+', '-', '=', '&', '|', '>', '<', '!', '(', ')', '\x7b', '\x7d', '[', ']', '^', '\"', '~',
    '*', '?', ':', '\\']

/-- Per-character escaping as the spec describes it: a reserved character is
prefixed with a backslash, every other character passes through. -/
def escapeCharSpec (c : Char) : List Char :=
  if c ∈ reservedSpec then ['\\', c] else [c]

/-- Spec-side optional-field mapping: the empty string is absent, a
non-empty string is kept verbatim. -/
def specOpt (s : String) : Option String :=
  if s = "" then none else some s

/-- Recognize the fixed inter-request sleep event of the worker. -/
def WorkerEvent.isSleep : WorkerEvent → Bool
  | WorkerEvent.sleep200 => true
  | _ => false

/-! ## Concrete fixtures for closed instances -/

/-- A JSON-parse capability that always fails. -/
def parseNone : String → Option Response := fun _ => none

/-- An IP-parse capability that always fails (never reached by the closed
instances below, whose entries have an empty `ip_address`). -/
def ipNone : String → Option IpAddr := fun _ => none

/-- Transport fixture: every page comes back as status 200 with the same
body. -/
def cexHttp : Nat → HttpOutcome := fun _ => HttpOutcome.response 200 "body"

/-- Parse fixture: every body parses to a successful page with no entries
and `total = 10000`. -/
def cexParse : String → Option Response := fun _ => some ⟨0, some [], true, "", 10000⟩

/-- Fetch fixture: a single successful page with three results and balance
seven. -/
def fetchSmall : Nat → Except DehashedError Response := fun _ => Except.ok ⟨7, some [], true, "", 3⟩

/-- Transport fixture for a one-page search. -/
def httpOne : Nat → HttpOutcome := fun _ => HttpOutcome.response 200 "b"

/-- Parse fixture for a one-page search: `total = 5`, balance nine. -/
def parseOne : String → Option Response := fun _ => some ⟨9, some [], true, "", 5⟩

/-- Fetch fixture for a two-page search: `total = 15000` on both pages,
balance fifty on page one and forty on page two. -/
def fetchTwo : Nat → Except DehashedError Response := fun p =>
  if p = 1 then Except.ok ⟨50, some [], true, "", 15000⟩
  else Except.ok ⟨40, some [], true, "", 15000⟩

/-- Fetch fixture: every page fails with status 401. -/
def fetchFail : Nat → Except DehashedError Response := fun _ =>
  Except.error DehashedError.Unauthorized

/-- The wire entry of the spec's example: `id = "5"`, all other fields
empty. -/
def entryFive : Entry := ⟨"5", "", "", "", "", "", "", "", "", "", ""⟩

/-- The normalized form of `entryFive`. -/
def entryFiveNorm : SearchEntry :=
  ⟨5, none, none, none, none, none, none, none, none, none, none⟩

/-- Fetch-engine fixture for the scheduler: every search fails with the
Unknown error. -/
def doSearchUnknown : Query → Except DehashedError SearchResult := fun _ =>
  Except.error DehashedError.Unknown

/-- A scheduled request whose reply channel was already abandoned. -/
def reqClosed : ScheduledRequest := ⟨Query.Email (SearchType.Simple "a"), false⟩

theorem escape_go (l : List Char) (s : String) :
    (l.foldl (fun s c => if c ∈ RESERVED then s ++ String.mk ['\\', c] else s.push c) s).data
      = s.data ++ (l.map escapeCharSpec).flatten := by
  induction l generalizing s with
  | nil => simp
  | cons c cs ih =>
    have hiff : c ∈ RESERVED ↔ c ∈ reservedSpec := Iff.rfl
    rw [List.foldl_cons, List.map_cons, List.flatten_cons]
    by_cases h : c ∈ reservedSpec
    · rw [if_pos (hiff.mpr h), ih, String.data_append]
      simp [escapeCharSpec, h]
    · rw [if_neg (fun hR => h (hiff.mp hR)), ih, String.data_push]
      simp [escapeCharSpec, h]

theorem escape_data (q : String) :
    (escape q).data = (q.data.map escapeCharSpec).flatten := by
  have := escape_go q.data ""
  simpa [escape] using this

theorem escapeCharSpec_ne_nil (c : Char) : escapeCharSpec c ≠ [] := by
  unfold escapeCharSpec
  by_cases h : c ∈ reservedSpec <;> simp [h]

theorem flatten_escapeCharSpec_inj :
    ∀ a b : List Char,
      (a.map escapeCharSpec).flatten = (b.map escapeCharSpec).flatten → a = b := by
  intro a
  induction a with
  | nil =>
    intro b h
    cases b with
    | nil => rfl
    | cons d bs =>
      exfalso
      rw [List.map_cons, List.flatten_cons] at h
      rcases List.append_eq_nil.mp h.symm with ⟨h1, _⟩
      exact escapeCharSpec_ne_nil d h1
  | cons c as ih =>
    intro b h
    cases b with
    | nil =>
      exfalso
      rw [List.map_cons, List.flatten_cons] at h
      rcases List.append_eq_nil.mp h with ⟨h1, _⟩
      exact escapeCharSpec_ne_nil c h1
    | cons d bs =>
      rw [List.map_cons, List.flatten_cons, List.map_cons, List.flatten_cons] at h
      by_cases hc : c ∈ reservedSpec <;> by_cases hd : d ∈ reservedSpec
      · rw [show escapeCharSpec c = ['\\', c] from by simp [escapeCharSpec, hc],
          show escapeCharSpec d = ['\\', d] from by simp [escapeCharSpec, hd]] at h
        simp only [List.cons_append, List.nil_append, List.cons.injEq, true_and] at h
        rcases h with ⟨hcd, htail⟩
        rw [hcd, ih bs htail]
      · exfalso
        rw [show escapeCharSpec c = ['\\', c] from by simp [escapeCharSpec, hc],
          show escapeCharSpec d = [d] from by simp [escapeCharSpec, hd]] at h
        simp only [List.cons_append, List.nil_append, List.cons.injEq] at h
        exact hd (by rw [← h.1]; decide)
      · exfalso
        rw [show escapeCharSpec c = [c] from by simp [escapeCharSpec, hc],
          show escapeCharSpec d = ['\\', d] from by simp [escapeCharSpec, hd]] at h
        simp only [List.cons_append, List.nil_append, List.cons.injEq] at h
        exact hc (by rw [h.1]; decide)
      · rw [show escapeCharSpec c = [c] from by simp [escapeCharSpec, hc],
          show escapeCharSpec d = [d] from by simp [escapeCharSpec, hd]] at h
        simp only [List.cons_append, List.nil_append, List.cons.injEq] at h
        rcases h with ⟨hcd, htail⟩
        rw [hcd, ih bs htail]

/-! ## Claim theorems -/

/-- C6: rendering a Simple leaf escapes exactly the fixed 21-character
reserved set by prefixing each occurrence with a backslash and passes every
other character through unchanged in order (`a+b` renders as `a\+b`); Exact
additionally wraps the escaped text in double quotes and Regex wraps it in
forward slashes. -/
theorem C6_escape_and_wrapping (x : String) :
    (SearchType.Simple x).toString = escape x
    ∧ (SearchType.Exact x).toString = "\"" ++ escape x ++ "\""
    ∧ (SearchType.Regex x).toString = "/" ++ escape x ++ "/"
    ∧ (escape x).data = (x.data.map escapeCharSpec).flatten
    ∧ RESERVED = reservedSpec
    ∧ RESERVED.length = 21
    ∧ (SearchType.Simple "a+b").toString = "a\\+b" := by
  refine ⟨rfl, rfl, rfl, escape_data x, rfl, rfl, by decide⟩

/-- C7: Or joins its recursively rendered children with the literal
string " OR ", And joins them with a single space, and every Query renders
as its fixed field name, a colon and the rendered SearchType;
`Query.Domain (Simple "example.com")` renders as `domain:example.com`. -/
theorem C7_joins_and_field_names :
    (∀ l, (SearchType.Or l).toString = String.intercalate " OR " (l.map SearchType.toString))
    ∧ (∀ l, (SearchType.And l).toString = String.intercalate " " (l.map SearchType.toString))
    ∧ (∀ t, (Query.Email t).toString = "email:" ++ t.toString)
    ∧ (∀ t, (Query.IpAddress t).toString = "ip_address:" ++ t.toString)
    ∧ (∀ t, (Query.Username t).toString = "username:" ++ t.toString)
    ∧ (∀ t, (Query.Password t).toString = "password:" ++ t.toString)
    ∧ (∀ t, (Query.HashedPassword t).toString = "hashed_password:" ++ t.toString)
    ∧ (∀ t, (Query.Name t).toString = "name:" ++ t.toString)
    ∧ (∀ t, (Query.Domain t).toString = "domain:" ++ t.toString)
    ∧ (∀ t, (Query.Vin t).toString = "vin:" ++ t.toString)
    ∧ (∀ t, (Query.Phone t).toString = "phone:" ++ t.toString)
    ∧ (∀ t, (Query.Address t).toString = "address:" ++ t.toString)
    ∧ (Query.Domain (SearchType.Simple "example.com")).toString = "domain:example.com" := by
  refine ⟨fun l => ?_, fun l => ?_, fun t => rfl, fun t => rfl, fun t => rfl, fun t => rfl,
    fun t => rfl, fun t => rfl, fun t => rfl, fun t => rfl, fun t => rfl, fun t => rfl,
    by decide⟩
  · rw [SearchType.toString, toStringList_eq_map]
  · rw [SearchType.toString, toStringList_eq_map]

/-- C10: escape is injective, because the backslash escape character is
itself reserved and therefore always escaped; consequently a rendered
Simple leaf uniquely determines its source text. -/
theorem C10_escape_injective :
    Function.Injective escape
    ∧ ∀ s t : String,
        (SearchType.Simple s).toString = (SearchType.Simple t).toString → s = t := by
  have hinj : Function.Injective escape := by
    intro s t h
    have hdata : (escape s).data = (escape t).data := by rw [h]
    rw [escape_data, escape_data] at hdata
    have hd := flatten_escapeCharSpec_inj s.data t.data hdata
    cases s
    cases t
    exact congrArg String.mk hd
  exact ⟨hinj, fun s t h => hinj h⟩

/-- Closed instance of C10: applying the injectivity theorem at a concrete
rendered leaf. -/
theorem C10_escape_injective_witness : "a:b" = "a:b" :=
  C10_escape_injective.2 "a:b" "a:b" rfl

theorem specOpt_eq (s : String) : (if s.isEmpty then none else some s) = specOpt s := by
  by_cases h : s = "" <;> simp [specOpt, h, String.isEmpty_iff]

/-- C5: normalization maps each of the ten optional wire fields from the
empty string to `none` and from a non-empty string to `some` of the value
verbatim, except that a non-empty `ip_address` goes through the structured
IP-address parser (failure fails the whole normalization with the
address-parse error) and `id` goes through the unsigned-integer parser
(failure fails it with the int-parse error); the entry with `id = "5"` and
every other field empty normalizes to id 5 with all optional fields
`none`. The embedding is a pure function, as the source method is. -/
theorem C5_normalization (parseIp : String → Option IpAddr) (e : Entry) :
    (SearchEntry.tryFrom parseIp e =
      match parseU64 e.id with
      | none => Except.error DehashedError.ParseIntError
      | some n =>
        if e.ip_address = "" then
          Except.ok
            ⟨n, specOpt e.email, specOpt e.username, specOpt e.password,
              specOpt e.hashed_password, none, specOpt e.name, specOpt e.vin,
              specOpt e.address, specOpt e.phone, specOpt e.database_name⟩
        else
          match parseIp e.ip_address with
          | none => Except.error DehashedError.ParseAddrError
          | some a =>
            Except.ok
              ⟨n, specOpt e.email, specOpt e.username, specOpt e.password,
                specOpt e.hashed_password, some a, specOpt e.name, specOpt e.vin,
                specOpt e.address, specOpt e.phone, specOpt e.database_name⟩)
    ∧ SearchEntry.tryFrom parseIp entryFive = Except.ok entryFiveNorm := by
  constructor
  · unfold SearchEntry.tryFrom
    cases parseU64 e.id with
    | none => rfl
    | some n =>
      simp only [specOpt_eq]
      by_cases hb : e.ip_address.isEmpty = true
      · have hip : e.ip_address = "" := (String.isEmpty_iff e.ip_address).mp hb
        rw [if_pos hb, if_pos hip]
      · have hip : ¬e.ip_address = "" := fun h =>
          hb ((String.isEmpty_iff e.ip_address).mpr h)
        rw [if_neg hb, if_neg hip]
        cases parseIp e.ip_address <;> rfl
  · rfl

theorem tryFrom_error (parseIp : String → Option IpAddr) (x : Entry) (e : DehashedError)
    (h : SearchEntry.tryFrom parseIp x = Except.error e) :
    e = DehashedError.ParseIntError ∨ e = DehashedError.ParseAddrError := by
  unfold SearchEntry.tryFrom at h
  cases hid : parseU64 x.id with
  | none =>
    rw [hid] at h
    simp only [Except.error.injEq] at h
    exact Or.inl h.symm
  | some n =>
    rw [hid] at h
    by_cases hb : x.ip_address.isEmpty = true
    · rw [if_pos hb] at h
      simp at h
    · rw [if_neg hb] at h
      cases hip : parseIp x.ip_address with
      | none =>
        rw [hip] at h
        simp only [Except.error.injEq] at h
        exact Or.inr h.symm
      | some a =>
        rw [hip] at h
        simp at h

theorem pushEntries_error (parseIp : String → Option IpAddr) (e : DehashedError) :
    ∀ (es : List Entry) (acc : List SearchEntry),
      DehashedApi.pushEntries parseIp acc es = Except.error e →
      e = DehashedError.ParseIntError ∨ e = DehashedError.ParseAddrError := by
  intro es
  induction es with
  | nil =>
    intro acc h
    simp [DehashedApi.pushEntries] at h
  | cons x xs ih =>
    intro acc h
    unfold DehashedApi.pushEntries at h
    cases htf : SearchEntry.tryFrom parseIp x with
    | error err =>
      rw [htf] at h
      simp only [Except.error.injEq] at h
      exact h ▸ tryFrom_error parseIp x err htf
    | ok se =>
      rw [htf] at h
      exact ih (acc ++ [se]) h

/-- C3: with a status in hand, `raw_req` yields InvalidQuery exactly on
status 302, RateLimited exactly on 400, Unauthorized exactly on 401, and
Unknown on any other non-200 status or on a 200 body the JSON capability
cannot parse; a parsed 200 response with `success = false` makes the
page's loop step fail with Unknown, while with `success = true` the only
errors a step can still produce are the entry-normalization ones, never a
status-derived error. -/
theorem C3_status_classification (parse : String → Option Response)
    (parseIp : String → Option IpAddr) (status : Nat) (body : String) :
    (DehashedApi.raw_req parse (HttpOutcome.response status body)
        = Except.error DehashedError.InvalidQuery ↔ status = 302)
    ∧ (DehashedApi.raw_req parse (HttpOutcome.response status body)
        = Except.error DehashedError.RateLimited ↔ status = 400)
    ∧ (DehashedApi.raw_req parse (HttpOutcome.response status body)
        = Except.error DehashedError.Unauthorized ↔ status = 401)
    ∧ (status ≠ 302 → status ≠ 400 → status ≠ 401 → status ≠ 200 →
        DehashedApi.raw_req parse (HttpOutcome.response status body)
          = Except.error DehashedError.Unknown)
    ∧ (status = 200 → parse body = none →
        DehashedApi.raw_req parse (HttpOutcome.response status body)
          = Except.error DehashedError.Unknown)
    ∧ (∀ r, status = 200 → parse body = some r →
        DehashedApi.raw_req parse (HttpOutcome.response status body) = Except.ok r)
    ∧ (∀ r acc page, r.success = false →
        DehashedApi.searchStep parseIp (Except.ok r) acc page
          = DehashedApi.StepOutcome.err DehashedError.Unknown)
    ∧ (∀ r acc page e, r.success = true →
        DehashedApi.searchStep parseIp (Except.ok r) acc page
          = DehashedApi.StepOutcome.err e →
        e = DehashedError.ParseIntError ∨ e = DehashedError.ParseAddrError) := by
  refine ⟨?_, ?_, ?_, ?_, ?_, ?_, ?_, ?_⟩
  · unfold DehashedApi.raw_req
    by_cases h302 : status = 302
    · simp [h302]
    · by_cases h400 : status = 400
      · simp [h302, h400]
      · by_cases h401 : status = 401
        · simp [h302, h400, h401]
        · by_cases h200 : status = 200
          · simp only [h302, h400, h401, h200, if_false, if_true, if_neg, if_pos]
            constructor
            · intro h
              cases hp : parse body with
              | none => rw [hp] at h; simp at h
              | some r => rw [hp] at h; simp at h
            · intro h; exact absurd h (by decide)
          · simp [h302, h400, h401, h200]
  · unfold DehashedApi.raw_req
    by_cases h302 : status = 302
    · simp [h302]
    · by_cases h400 : status = 400
      · simp [h302, h400]
      · by_cases h401 : status = 401
        · simp [h302, h400, h401]
        · by_cases h200 : status = 200
          · simp only [h302, h400, h401, h200, if_false, if_true, if_neg, if_pos]
            constructor
            · intro h
              cases hp : parse body with
              | none => rw [hp] at h; simp at h
              | some r => rw [hp] at h; simp at h
            · intro h; exact absurd h (by decide)
          · simp [h302, h400, h401, h200]
  · unfold DehashedApi.raw_req
    by_cases h302 : status = 302
    · simp [h302]
    · by_cases h400 : status = 400
      · simp [h302, h400]
      · by_cases h401 : status = 401
        · simp [h302, h400, h401]
        · by_cases h200 : status = 200
          · simp only [h302, h400, h401, h200, if_false, if_true, if_neg, if_pos]
            constructor
            · intro h
              cases hp : parse body with
              | none => rw [hp] at h; simp at h
              | some r => rw [hp] at h; simp at h
            · intro h; exact absurd h (by decide)
          · simp [h302, h400, h401, h200]
  · intro h302 h400 h401 h200
    unfold DehashedApi.raw_req
    simp [h302, h400, h401, h200]
  · intro h200 hp
    unfold DehashedApi.raw_req
    simp [h200, hp]
  · intro r h200 hp
    unfold DehashedApi.raw_req
    simp [h200, hp]
  · intro r acc page hs
    unfold DehashedApi.searchStep
    simp [hs]
  · intro r acc page e hs hstep
    unfold DehashedApi.searchStep at hstep
    simp only [hs, Bool.not_true, Bool.false_eq_true, if_false] at hstep
    cases hent : r.entries with
    | none =>
      rw [hent] at hstep
      by_cases ht : r.total < page * 10000 <;> simp [ht] at hstep
    | some l =>
      rw [hent] at hstep
      dsimp only at hstep
      cases hpe : DehashedApi.pushEntries parseIp acc.entries l with
      | error err =>
        rw [hpe] at hstep
        simp only [DehashedApi.StepOutcome.err.injEq] at hstep
        exact hstep ▸ pushEntries_error parseIp err l acc.entries hpe
      | ok newEntries =>
        rw [hpe] at hstep
        by_cases ht : r.total < page * 10000 <;> simp [ht] at hstep

/-- Closed instance of C3 at status 302: the classification theorem applied
with the always-failing parse capability. -/
theorem C3_status_classification_witness :
    DehashedApi.raw_req parseNone (HttpOutcome.response 302 "")
      = Except.error DehashedError.InvalidQuery :=
  (C3_status_classification parseNone ipNone 302 "").1.mpr rfl

theorem searchStep_ok (parseIp : String → Option IpAddr) (r : Response) (acc : SearchResult)
    (page : Nat) (es : List SearchEntry) (hs : r.success = true)
    (hn : (match r.entries with
           | some l => DehashedApi.pushEntries parseIp acc.entries l
           | none => Except.ok acc.entries) = Except.ok es) :
    DehashedApi.searchStep parseIp (Except.ok r) acc page =
      if r.total < page * 10000 then DehashedApi.StepOutcome.done ⟨es, r.balance⟩
      else DehashedApi.StepOutcome.next ⟨es, r.balance⟩ := by
  unfold DehashedApi.searchStep
  simp only [hs, Bool.not_true, Bool.false_eq_true, if_false]
  rw [hn]

theorem searchStep_done_inv (parseIp : String → Option IpAddr)
    (res : Except DehashedError Response) (acc : SearchResult) (page : Nat)
    (out : SearchResult)
    (h : DehashedApi.searchStep parseIp res acc page = DehashedApi.StepOutcome.done out) :
    ∃ r, res = Except.ok r ∧ r.success = true ∧ out.balance = r.balance := by
  cases res with
  | error e => exact absurd h (by simp [DehashedApi.searchStep])
  | ok r =>
    by_cases hs : r.success = true
    · refine ⟨r, rfl, hs, ?_⟩
      unfold DehashedApi.searchStep at h
      simp only [hs, Bool.not_true, Bool.false_eq_true, if_false] at h
      cases hE : (match r.entries with
                  | some l => DehashedApi.pushEntries parseIp acc.entries l
                  | none => Except.ok acc.entries) with
      | error err => rw [hE] at h; simp at h
      | ok newEntries =>
        rw [hE] at h
        dsimp only at h
        by_cases ht : r.total < page * 10000
        · rw [if_pos ht] at h
          injection h with h'
          rw [← h']
        · rw [if_neg ht] at h
          simp at h
    · exfalso
      unfold DehashedApi.searchStep at h
      have hs' : r.success = false := by
        cases hval : r.success
        · rfl
        · exact absurd hval hs
      simp [hs'] at h

theorem searchStep_next_inv (parseIp : String → Option IpAddr)
    (res : Except DehashedError Response) (acc : SearchResult) (page : Nat)
    (out : SearchResult)
    (h : DehashedApi.searchStep parseIp res acc page = DehashedApi.StepOutcome.next out) :
    ∃ r, res = Except.ok r ∧ r.success = true ∧ out.balance = r.balance := by
  cases res with
  | error e => exact absurd h (by simp [DehashedApi.searchStep])
  | ok r =>
    by_cases hs : r.success = true
    · refine ⟨r, rfl, hs, ?_⟩
      unfold DehashedApi.searchStep at h
      simp only [hs, Bool.not_true, Bool.false_eq_true, if_false] at h
      cases hE : (match r.entries with
                  | some l => DehashedApi.pushEntries parseIp acc.entries l
                  | none => Except.ok acc.entries) with
      | error err => rw [hE] at h; simp at h
      | ok newEntries =>
        rw [hE] at h
        dsimp only at h
        by_cases ht : r.total < page * 10000
        · rw [if_pos ht] at h
          simp at h
        · rw [if_neg ht] at h
          injection h with h'
          rw [← h']
    · exfalso
      unfold DehashedApi.searchStep at h
      have hs' : r.success = false := by
        cases hval : r.success
        · rfl
        · exact absurd hval hs
      simp [hs'] at h

theorem searchFrom_requests_pos (parseIp : String → Option IpAddr)
    (fetch : Nat → Except DehashedError Response) :
    ∀ (fuel page : Nat) (acc : SearchResult) (t : DehashedApi.SearchTrace),
      DehashedApi.searchFrom parseIp fetch fuel page acc = some t → 1 ≤ t.requests := by
  intro fuel
  induction fuel with
  | zero =>
    intro page acc t h
    simp [DehashedApi.searchFrom] at h
  | succ n ih =>
    intro page acc t h
    simp only [DehashedApi.searchFrom] at h
    cases hstep : DehashedApi.searchStep parseIp (fetch page) acc page with
    | err e =>
      rw [hstep] at h
      dsimp only at h
      injection h with h'
      rw [← h']
    | done out =>
      rw [hstep] at h
      dsimp only at h
      injection h with h'
      rw [← h']
    | next acc2 =>
      rw [hstep] at h
      dsimp only at h
      cases hrec : DehashedApi.searchFrom parseIp fetch n (page + 1) acc2 with
      | none => rw [hrec] at h; simp at h
      | some t' =>
        rw [hrec] at h
        dsimp only at h
        injection h with h'
        rw [← h']
        exact Nat.succ_le_succ (Nat.zero_le _)

/-- C1: after a successful page (success true, entries normalizable) the
pagination loop stops exactly when `total < page * 10000`, returning the
accumulated result; otherwise it performs the fixed 200ms delay and fetches
the next page (one more request and one more sleep on top of the rest of
the run). -/
theorem C1_stop_condition (parseIp : String → Option IpAddr)
    (fetch : Nat → Except DehashedError Response) (fuel page : Nat) (acc : SearchResult)
    (r : Response) (es : List SearchEntry)
    (hfetch : fetch page = Except.ok r) (hs : r.success = true)
    (hn : (match r.entries with
           | some l => DehashedApi.pushEntries parseIp acc.entries l
           | none => Except.ok acc.entries) = Except.ok es) :
    (r.total < page * 10000 →
      DehashedApi.searchFrom parseIp fetch (fuel + 1) page acc
        = some ⟨1, 0, Except.ok ⟨es, r.balance⟩⟩)
    ∧ (¬r.total < page * 10000 →
      DehashedApi.searchFrom parseIp fetch (fuel + 1) page acc
        = (DehashedApi.searchFrom parseIp fetch fuel (page + 1) ⟨es, r.balance⟩).map
            (fun t => ⟨t.requests + 1, t.sleeps + 1, t.result⟩)) := by
  have hstep := searchStep_ok parseIp r acc page es hs hn
  constructor
  · intro ht
    simp only [DehashedApi.searchFrom, hfetch, hstep, if_pos ht]
  · intro ht
    simp only [DehashedApi.searchFrom, hfetch, hstep, if_neg ht]
    cases hrec : DehashedApi.searchFrom parseIp fetch fuel (page + 1) ⟨es, r.balance⟩ <;>
      simp [hrec]

/-- Closed instance of C1: a page reporting three results stops the loop at
once with one request and no sleep. -/
theorem C1_stop_condition_witness :
    DehashedApi.searchFrom ipNone fetchSmall 1 1 ⟨[], 0⟩
      = some ⟨1, 0, Except.ok ⟨[], 7⟩⟩ :=
  (C1_stop_condition ipNone fetchSmall 0 1 ⟨[], 0⟩ ⟨7, some [], true, "", 3⟩ [] rfl rfl rfl).1
    (by decide)

/-- Counterexample to C2 as stated: a first page reporting
`total = 10000 ≤ 10000` with success true and no entries still leads to a
second HTTP request and one inter-page delay, because the source's stop
condition is the strict `total < page * 10_000`. -/
theorem C2_counterexample :
    cexParse "body" = some ⟨0, some [], true, "", 10000⟩
    ∧ DehashedApi.search ipNone cexParse cexHttp 2
        = some ⟨2, 1, Except.ok ⟨[], 0⟩⟩ :=
  ⟨rfl, rfl⟩

/-- C2 (amended): every search whose first page reports
`total < 10000` (strictly), with success true and all entries normalizable,
issues exactly one request and returns without any inter-page delay. -/
theorem C2_single_page_amended (parseIp : String → Option IpAddr)
    (parse : String → Option Response) (http : Nat → HttpOutcome) (fuel : Nat)
    (r : Response) (es : List SearchEntry)
    (h1 : DehashedApi.raw_req parse (http 1) = Except.ok r)
    (hs : r.success = true)
    (hn : (match r.entries with
           | some l => DehashedApi.pushEntries parseIp ([] : List SearchEntry) l
           | none => Except.ok ([] : List SearchEntry)) = Except.ok es)
    (ht : r.total < 10000) :
    DehashedApi.search parseIp parse http (fuel + 1)
      = some ⟨1, 0, Except.ok ⟨es, r.balance⟩⟩ := by
  have hstep := searchStep_ok parseIp r ⟨[], 0⟩ 1 es hs hn
  have ht' : r.total < 1 * 10000 := by simpa using ht
  unfold DehashedApi.search
  simp only [DehashedApi.searchFrom, h1, hstep, if_pos ht']

/-- Closed instance of the amended C2: a one-page search with `total = 5`
makes one request, no sleep, and returns balance nine. -/
theorem C2_single_page_witness :
    DehashedApi.search ipNone parseOne httpOne 1 = some ⟨1, 0, Except.ok ⟨[], 9⟩⟩ :=
  C2_single_page_amended ipNone parseOne httpOne 0 ⟨9, some [], true, "", 5⟩ [] rfl rfl rfl
    (by decide)

/-- C4: when a page of a multi-page search fails (transport error, bad
status, unparseable body, success false, or an entry-normalization error,
all of which surface as an `err` step), the loop returns exactly that
error: no further request, no sleep, no retry, and the accumulated entries
of earlier pages are discarded (the outcome is the bare error, whatever the
accumulator held); an error arising deeper in the run propagates to the
whole search unchanged. -/
theorem C4_first_error_discards (parseIp : String → Option IpAddr)
    (fetch : Nat → Except DehashedError Response) (fuel page : Nat) (acc : SearchResult) :
    (∀ e, DehashedApi.searchStep parseIp (fetch page) acc page = DehashedApi.StepOutcome.err e →
       DehashedApi.searchFrom parseIp fetch (fuel + 1) page acc
         = some ⟨1, 0, Except.error e⟩)
    ∧ (∀ acc2 t e,
       DehashedApi.searchStep parseIp (fetch page) acc page = DehashedApi.StepOutcome.next acc2 →
       DehashedApi.searchFrom parseIp fetch fuel (page + 1) acc2 = some t →
       t.result = Except.error e →
       DehashedApi.searchFrom parseIp fetch (fuel + 1) page acc
         = some ⟨t.requests + 1, t.sleeps + 1, Except.error e⟩) := by
  constructor
  · intro e h
    simp only [DehashedApi.searchFrom, h]
  · intro acc2 t e hnext hrec hres
    simp only [DehashedApi.searchFrom, hnext, hrec]
    rw [hres]

/-- Closed instance of C4: a page failing with status 401 discards an
accumulator already holding an entry and a positive balance. -/
theorem C4_first_error_discards_witness :
    DehashedApi.searchFrom ipNone fetchFail 1 1 ⟨[entryFiveNorm], 99⟩
      = some ⟨1, 0, Except.error DehashedError.Unauthorized⟩ :=
  (C4_first_error_discards ipNone fetchFail 0 1 ⟨[entryFiveNorm], 99⟩).1
    DehashedError.Unauthorized rfl

/-- C8: a successful search's balance is the balance reported by the most
recently fetched page — the last page of the run — and is never a sum
across pages. -/
theorem C8_balance_from_last_page (parseIp : String → Option IpAddr)
    (fetch : Nat → Except DehashedError Response) :
    ∀ (fuel page : Nat) (acc : SearchResult) (t : DehashedApi.SearchTrace)
      (res : SearchResult),
      DehashedApi.searchFrom parseIp fetch fuel page acc = some t →
      t.result = Except.ok res →
      ∃ r, fetch (page + t.requests - 1) = Except.ok r ∧ r.success = true
        ∧ res.balance = r.balance := by
  intro fuel
  induction fuel with
  | zero =>
    intro page acc t res h _
    simp [DehashedApi.searchFrom] at h
  | succ n ih =>
    intro page acc t res h hres
    simp only [DehashedApi.searchFrom] at h
    cases hstep : DehashedApi.searchStep parseIp (fetch page) acc page with
    | err e =>
      rw [hstep] at h
      dsimp only at h
      injection h with h'
      rw [← h'] at hres
      simp at hres
    | done out =>
      rw [hstep] at h
      dsimp only at h
      injection h with h'
      obtain ⟨r, hr, hsucc, hbal⟩ := searchStep_done_inv parseIp (fetch page) acc page out hstep
      rw [← h'] at hres
      dsimp only at hres
      injection hres with h''
      refine ⟨r, ?_, hsucc, ?_⟩
      · rw [← h']
        simpa using hr
      · rw [← h'']
        exact hbal
    | next acc2 =>
      rw [hstep] at h
      dsimp only at h
      cases hrec : DehashedApi.searchFrom parseIp fetch n (page + 1) acc2 with
      | none => rw [hrec] at h; simp at h
      | some t' =>
        rw [hrec] at h
        dsimp only at h
        injection h with h'
        have hres' : t'.result = Except.ok res := by
          rw [← h'] at hres
          exact hres
        obtain ⟨r, hr, hsucc, hbal⟩ := ih (page + 1) acc2 t' res hrec hres'
        refine ⟨r, ?_, hsucc, hbal⟩
        rw [← h']
        have harith : page + (t'.requests + 1) - 1 = page + 1 + t'.requests - 1 := by omega
        dsimp only
        rw [harith]
        exact hr

/-- Closed instance of C8: a two-page run returns balance forty, the
balance of page two, not ninety (the sum with page one's fifty). -/
theorem C8_balance_witness :
    ∃ r, fetchTwo 2 = Except.ok r ∧ r.success = true
      ∧ (40 : Nat) = r.balance :=
  C8_balance_from_last_page ipNone fetchTwo 2 1 ⟨[], 0⟩ ⟨2, 1, Except.ok ⟨[], 40⟩⟩ ⟨[], 40⟩
    rfl rfl

theorem workerStep_filter_isSearch (doSearch : Query → Except DehashedError SearchResult)
    (req : ScheduledRequest) :
    (Scheduler.workerStep doSearch req).filter WorkerEvent.isSearch
      = [WorkerEvent.search req.query] := by
  unfold Scheduler.workerStep
  cases hret : req.retOpen <;> simp [WorkerEvent.isSearch]

theorem workerStep_countP_isSleep (doSearch : Query → Except DehashedError SearchResult)
    (req : ScheduledRequest) :
    (Scheduler.workerStep doSearch req).countP (fun ev => WorkerEvent.isSleep ev) = 1 := by
  unfold Scheduler.workerStep
  cases hret : req.retOpen <;> simp [WorkerEvent.isSleep]

/-- C9: the single worker of the scheduler is strictly sequential: its
event trace is the concatenation, in FIFO submission order, of one
per-request block each holding exactly one search, the delivery of that
search's result (or the logged-and-ignored failure when the reply channel
was abandoned), and then the fixed 200ms sleep before the next request is
taken; consequently the searches appear in submission order, there is one
sleep per request, and a request with an abandoned reply channel is
followed by the processing of the rest of the queue. -/
theorem C9_worker_sequential (doSearch : Query → Except DehashedError SearchResult)
    (reqs : List ScheduledRequest) :
    (Scheduler.workerRun doSearch reqs
        = (reqs.map (Scheduler.workerStep doSearch)).flatten)
    ∧ ((Scheduler.workerRun doSearch reqs).filter WorkerEvent.isSearch
        = reqs.map (fun req => WorkerEvent.search req.query))
    ∧ ((Scheduler.workerRun doSearch reqs).countP (fun ev => WorkerEvent.isSleep ev)
        = reqs.length)
    ∧ (∀ req rest, req.retOpen = false →
        Scheduler.workerRun doSearch (req :: rest)
          = WorkerEvent.search req.query :: WorkerEvent.warnSendFailed req.query
              :: WorkerEvent.sleep200 :: Scheduler.workerRun doSearch rest) := by
  refine ⟨?_, ?_, ?_, ?_⟩
  · induction reqs with
    | nil => rfl
    | cons req rest ih => simp [Scheduler.workerRun, ih]
  · induction reqs with
    | nil => rfl
    | cons req rest ih =>
      simp only [Scheduler.workerRun, List.filter_append, ih,
        workerStep_filter_isSearch, List.map_cons]
      rfl
  · induction reqs with
    | nil => rfl
    | cons req rest ih =>
      simp only [Scheduler.workerRun, List.countP_append, ih,
        workerStep_countP_isSleep, List.length_cons]
      omega
  · intro req rest hret
    simp [Scheduler.workerRun, Scheduler.workerStep, hret]

/-- Closed instance of C9: a request whose reply channel was abandoned is
logged and the worker moves on to an empty queue. -/
theorem C9_worker_sequential_witness :
    Scheduler.workerRun doSearchUnknown [reqClosed]
      = [WorkerEvent.search reqClosed.query, WorkerEvent.warnSendFailed reqClosed.query,
          WorkerEvent.sleep200] :=
  (C9_worker_sequential doSearchUnknown []).2.2.2 reqClosed [] rfl

end Dehashed
